import Mathlib

/-!
Verification model of the TSDIAPI declarative route-definition and
request-processing pipeline, as described by the repository's documentation.
The framework implementation itself is not part of the repository, so every
operation below is modelled from the specification's words and checked
against the documented behavior.
-/

/-- Modelled from the spec: HTTP methods supported by the fluent builder
(`.get`, `.post`, `.put`, `.delete`, `.patch`). -/
inductive HttpMethod
| get
| post
| put
| delete
| patch
deriving DecidableEq

/-- Modelled from the spec: a simplified object schema of the schema-engine
collaborator (TypeBox in the documentation). It records the required field
names, all declared field names, and whether extra (undeclared) fields are
explicitly allowed. -/
structure ObjSchema where
  required : List String
  declared : List String
  allowExtra : Bool
deriving DecidableEq

/-- A flat field map standing for a parsed params/query/body object. -/
abbrev FieldMap := List (String × String)

/-- Modelled from the spec: a structured field-level validation error carried
by a BadRequest response. -/
structure FieldError where
  field : String
  message : String
deriving DecidableEq

/-- Modelled from the spec: a terminal error response as produced by guards,
resolvers, validation and file-policy checks; it carries an HTTP status, a
message and structured field-level errors. -/
structure ErrorResponse where
  status : Nat
  message : String
  fieldErrors : List FieldError
deriving DecidableEq

/-- Modelled from the spec: validate a value against an object schema.
Missing required fields are reported first; unknown/extra fields in the value
are rejected unless the schema explicitly allows them. An empty result means
the value is valid. -/
def validateSection (sch : ObjSchema) (v : FieldMap) : List FieldError :=
  (sch.required.filter (fun f => (v.lookup f).isNone)).map
    (fun f => ⟨f, "missing required field"⟩)
  ++ (if sch.allowExtra then []
      else ((v.map Prod.fst).filter (fun f => !(sch.declared.contains f))).map
        (fun f => ⟨f, "unknown field"⟩))

/-- Validate an optional (registered or absent) schema: an absent schema
performs no check. -/
def validateOpt (sch : Option ObjSchema) (v : FieldMap) : List FieldError :=
  match sch with
  | none => []
  | some s => validateSection s v

/-- Modelled from the spec: the per-field file-upload policy (`fileOptions`):
maximum size, accepted media-type patterns, maximum count. -/
structure FilePolicy where
  maxFileSize : Option Nat
  accept : List String
  maxFiles : Option Nat
deriving DecidableEq

/-- Modelled from the spec: one raw multipart part as it arrives from the
transport, before policy checks. -/
structure RawFilePart where
  fieldname : String
  filename : String
  encoding : String
  mimetype : String
  content : List Nat
deriving DecidableEq

/-- Modelled from the spec: the `UploadFile` entry delivered to handlers in
`req.tempFiles`: a unique id, the form-field metadata, the byte size and the
fully buffered content. -/
structure UploadFile where
  id : Nat
  fieldname : String
  filename : String
  encoding : String
  mimetype : String
  filesize : Nat
  buffer : List Nat
deriving DecidableEq

/-- Modelled from the spec: media-type pattern matching for `accept` entries:
a pattern ending in a star (such as the image wildcard) matches by prefix,
any other pattern matches exactly. -/
def mimeMatches (pat mt : String) : Bool :=
  if pat.endsWith "/*" then (pat.dropRight 1).isPrefixOf mt else pat == mt

/-- Modelled from the spec: the response-format mode chosen once at build
time (structured JSON, binary, or text). -/
inductive ResponseMode
| structured
| binary
| text
deriving DecidableEq

/-- Standard error-body schema (`ResponseErrorSchema` in the documentation). -/
def ResponseErrorSchema : ObjSchema :=
  { required := ["error"], declared := ["error", "details"], allowExtra := false }

/-- Modelled from the spec: `buildResponseCodes(successSchema, errorSchema)`
registers the standard response codes 200, 400, 401, 403, 404, 409, 422, 429,
500, 503, the success schema under 200 and the error schema under all error
codes. -/
def buildResponseCodes (success err : ObjSchema) : List (Nat × ObjSchema) :=
  [(200, success), (400, err), (401, err), (403, err), (404, err),
   (409, err), (422, err), (429, err), (500, err), (503, err)]

/-- Modelled from the spec: `buildExtraResponseCodes(successSchema, errorSchema)`
registers only the essential response codes 200, 400, 401, 403. -/
def buildExtraResponseCodes (success err : ObjSchema) : List (Nat × ObjSchema) :=
  [(200, success), (400, err), (401, err), (403, err)]

/-- Modelled from the spec: the ephemeral per-request ExecutionContext: raw
path/query/body/header values, the validated copies, the extracted temporary
files, the resolved-data slot and the authenticated-session slot. -/
structure Ctx where
  rawParams : FieldMap
  rawQuery : FieldMap
  rawBody : FieldMap
  headers : FieldMap
  fileParts : List RawFilePart
  validatedParams : Option FieldMap
  validatedQuery : Option FieldMap
  validatedBody : Option FieldMap
  tempFiles : List UploadFile
  routeData : Option FieldMap
  session : Option FieldMap
deriving DecidableEq

/-- Modelled from the spec: a guard's outcome: either "allow", carrying the
(possibly mutated) session/context state, or a terminal error response. -/
inductive GuardOutcome
| allow (c : Ctx)
| reject (e : ErrorResponse)
deriving DecidableEq

/-- A guard: a named, reusable predicate/side-effect unit over the request's
current state. -/
abbrev Guard := Ctx → GuardOutcome

/-- A resolver: a single async step producing either a value (attached to the
context as resolved data) or a terminal error response. -/
abbrev Resolver := Ctx → Except ErrorResponse FieldMap

/-- A handler: returns a (status, payload) pair or throws a terminal error. -/
abbrev Handler := Ctx → Except ErrorResponse (Nat × FieldMap)

/-- Modelled from the spec: the supported credential kinds of the auth stage. -/
inductive AuthKind
| bearer
| basic
| apiKey
deriving DecidableEq

/-- Modelled from the spec: an auth strategy reference: its credential kind
plus the credential validator, mapping a raw credential to a session payload
(or rejecting it). -/
structure AuthPolicy where
  kind : AuthKind
  validate : String → Option FieldMap

/-- Modelled from the spec: a finalized RouteDefinition: identity
(method, path, version), ordered response contracts keyed by status code,
optional input schemas, optional auth strategy, ordered guards, optional
resolver, file-upload policy and multipart mode, response-format mode and the
handler. -/
structure RouteDefinition where
  method : HttpMethod
  path : String
  version : String
  codes : List (Nat × ObjSchema)
  paramsSchema : Option ObjSchema
  querySchema : Option ObjSchema
  bodySchema : Option ObjSchema
  auth : Option AuthPolicy
  guards : List Guard
  resolver : Option Resolver
  multipart : Bool
  filePolicies : List (String × FilePolicy)
  responseMode : ResponseMode
  handler : Handler

/-- Modelled from the spec: the validated input sections, in validation
order: params, then query, then body. -/
inductive Sect
| params
| query
| body
deriving DecidableEq

/-- Observable pipeline events, used to state the ordering and
short-circuiting guarantees (the spec's "call-order counter in a test
double"). -/
inductive Ev
| authEv
| guardEv (i : Nat)
| validateEv (s : Sect)
| extractEv
| resolveEv
| handleEv
| respondEv
deriving DecidableEq

/-- The pipeline stage an event belongs to, in the strict stage order of the
request state machine. -/
def evStage : Ev → Nat
  | .authEv => 0
  | .guardEv _ => 1
  | .validateEv _ => 2
  | .extractEv => 3
  | .resolveEv => 4
  | .handleEv => 5
  | .respondEv => 6

/-- The body written to the transport: a structured payload, a structured
error body with field-level errors, or the generic internal-error body. -/
inductive RespBody
| json (payload : FieldMap)
| errorInfo (message : String) (fieldErrors : List FieldError)
| internalError
deriving DecidableEq

/-- The normalized response abstraction handed back to the transport layer. -/
structure HttpResponse where
  status : Nat
  body : RespBody
deriving DecidableEq

/-- Modelled from the spec: the Respond-stage log channel; a ContractViolation
entry records a status code that was produced with no matching response
contract. -/
inductive LogEntry
| contractViolation (status : Nat)
deriving DecidableEq

/-- The complete observable outcome of one request: the response, the log
entries, the event trace, and the resources still retained once the
ExecutionContext has been destroyed at response time. -/
structure PipelineResult where
  response : HttpResponse
  logs : List LogEntry
  trace : List Ev
  retained : List UploadFile
deriving DecidableEq

/-- A pipeline outcome: the (status, body) pair looked up against the route's
response contracts by the Respond stage. -/
abbrev Outcome := Nat × RespBody

/-- Convert a terminal error response into a Respond-stage outcome. -/
def errOutcome (e : ErrorResponse) : Outcome :=
  (e.status, RespBody.errorInfo e.message e.fieldErrors)

/-- Modelled from the spec: the Respond stage. The outcome's status code is
looked up in the route's response-contract map; if absent this is a
framework-level contract violation: it is logged and reported as a generic
internal error (status 500), never silently written through. -/
def respondStage (d : RouteDefinition) (o : Outcome) : HttpResponse × List LogEntry :=
  if (d.codes.lookup o.1).isSome then ({ status := o.1, body := o.2 }, [])
  else ({ status := 500, body := RespBody.internalError },
        [LogEntry.contractViolation o.1])

/-- Terminate the pipeline: run the Respond stage on the outcome and destroy
the ExecutionContext (freeing any temporary file buffers). -/
def finish (d : RouteDefinition) (tr : List Ev) (o : Outcome) : PipelineResult :=
  let (resp, logs) := respondStage d o
  { response := resp, logs := logs, trace := tr ++ [Ev.respondEv], retained := [] }

/-- A BadRequest response carrying structured field-level errors. -/
def badRequest (errs : List FieldError) : ErrorResponse :=
  { status := 400, message := "Bad Request", fieldErrors := errs }

/-- Modelled from the spec: the Authenticate stage. If an auth strategy is
declared, credentials are extracted and validated; absence of credentials and
invalid credentials both map to 401 but carry distinguishable messages. On
success the decoded session payload is attached to the context. -/
def authStage (d : RouteDefinition) (c : Ctx) : List Ev × Except ErrorResponse Ctx :=
  match d.auth with
  | none => ([], Except.ok c)
  | some pol =>
    ([Ev.authEv],
      match c.headers.lookup "authorization" with
      | none =>
        Except.error { status := 401, message := "missing credentials", fieldErrors := [] }
      | some cred =>
        match pol.validate cred with
        | none =>
          Except.error { status := 401, message := "invalid credentials", fieldErrors := [] }
        | some sess => Except.ok { c with session := some sess })

/-- Modelled from the spec: the Guard stage. Guards run sequentially in
declaration order (index `i` names the next guard); each guard sees the
context as mutated by the guards before it; the first guard returning a
non-"allow" result short-circuits with that guard's error response, and the
guards after it never run. -/
def runGuardsFrom (gs : List Guard) (i : Nat) (c : Ctx) :
    List Ev × Except ErrorResponse Ctx :=
  match gs with
  | [] => ([], Except.ok c)
  | g :: rest =>
    match g c with
    | GuardOutcome.allow c' =>
      (Ev.guardEv i :: (runGuardsFrom rest (i + 1) c').1,
       (runGuardsFrom rest (i + 1) c').2)
    | GuardOutcome.reject e => ([Ev.guardEv i], Except.error e)

/-- The Guard stage as a pipeline stage. -/
def guardStage (d : RouteDefinition) (c : Ctx) : List Ev × Except ErrorResponse Ctx :=
  runGuardsFrom d.guards 0 c

/-- Modelled from the spec: the Validate stage: params, then query, then body
are validated against their registered schemas, in that order; the first
failing section short-circuits with a BadRequest carrying structured
field-level errors. -/
def validateStage (d : RouteDefinition) (c : Ctx) : List Ev × Except ErrorResponse Ctx :=
  let pe := validateOpt d.paramsSchema c.rawParams
  if pe ≠ [] then ([Ev.validateEv Sect.params], Except.error (badRequest pe))
  else
    let qe := validateOpt d.querySchema c.rawQuery
    if qe ≠ [] then
      ([Ev.validateEv Sect.params, Ev.validateEv Sect.query],
       Except.error (badRequest qe))
    else
      let be := validateOpt d.bodySchema c.rawBody
      if be ≠ [] then
        ([Ev.validateEv Sect.params, Ev.validateEv Sect.query, Ev.validateEv Sect.body],
         Except.error (badRequest be))
      else
        ([Ev.validateEv Sect.params, Ev.validateEv Sect.query, Ev.validateEv Sect.body],
         Except.ok { c with validatedParams := some c.rawParams,
                            validatedQuery := some c.rawQuery,
                            validatedBody := some c.rawBody })

/-- True when the part exceeds the maximum file size declared by the policy
matching its field. -/
def sizeExceeded (pol : FilePolicy) (p : RawFilePart) : Bool :=
  match pol.maxFileSize with
  | some m => decide (m < p.content.length)
  | none => false

/-- True when the part's media type matches the policy's accept patterns (an
empty accept list accepts everything). -/
def mimeAccepted (pol : FilePolicy) (p : RawFilePart) : Bool :=
  pol.accept.isEmpty || pol.accept.any (fun pat => mimeMatches pat p.mimetype)

/-- True when accepting this part would exceed the policy's maximum file
count for its field; `seen` lists the field names already accepted. -/
def countExceeded (pol : FilePolicy) (seen : List String) (p : RawFilePart) : Bool :=
  match pol.maxFiles with
  | some mx => decide (mx < seen.count p.fieldname + 1)
  | none => false

/-- The PayloadTooLarge rejection for an oversized uploaded file. -/
def fileSizeError (p : RawFilePart) : ErrorResponse :=
  { status := 413, message := "file too large", fieldErrors := [⟨p.fieldname, "file too large"⟩] }

/-- The UnsupportedMediaType rejection for a file of a disallowed type. -/
def mediaTypeError (p : RawFilePart) : ErrorResponse :=
  { status := 415, message := "unsupported media type",
    fieldErrors := [⟨p.fieldname, "unsupported media type"⟩] }

/-- The BadRequest rejection for too many files in one field. -/
def tooManyFilesError (p : RawFilePart) : ErrorResponse :=
  { status := 400, message := "too many files", fieldErrors := [⟨p.fieldname, "too many files"⟩] }

/-- Modelled from the spec: check one arriving part against the policy
matching its field (size, then media type, then count); a field with no
declared policy is unconstrained. -/
def checkPart (policies : List (String × FilePolicy)) (seen : List String)
    (p : RawFilePart) : Option ErrorResponse :=
  match policies.lookup p.fieldname with
  | none => none
  | some pol =>
    if sizeExceeded pol p then some (fileSizeError p)
    else if !(mimeAccepted pol p) then some (mediaTypeError p)
    else if countExceeded pol seen p then some (tooManyFilesError p)
    else none

/-- Turn an accepted raw part into the buffered `UploadFile` delivered to the
handler: the id is the part's arrival index (unique per request), the
metadata is copied from the part and the content is fully buffered. -/
def mkUpload (i : Nat) (p : RawFilePart) : UploadFile :=
  { id := i, fieldname := p.fieldname, filename := p.filename,
    encoding := p.encoding, mimetype := p.mimetype,
    filesize := p.content.length, buffer := p.content }

/-- Modelled from the spec: stream the multipart parts, checking each against
its field's policy as it arrives; a violation short-circuits with the
corresponding error and the buffers accumulated so far are freed. -/
def extractGo (policies : List (String × FilePolicy)) (seen : List String)
    (i : Nat) : List RawFilePart → Except ErrorResponse (List UploadFile)
  | [] => Except.ok []
  | p :: rest =>
    match checkPart policies seen p with
    | some e => Except.error e
    | none =>
      (extractGo policies (p.fieldname :: seen) (i + 1) rest).map
        (fun fs => mkUpload i p :: fs)

/-- Extract all multipart parts of a request under the route's policies. -/
def extractFiles (policies : List (String × FilePolicy))
    (parts : List RawFilePart) : Except ErrorResponse (List UploadFile) :=
  extractGo policies [] 0 parts

/-- Modelled from the spec: the ExtractFiles stage; only entered if multipart
mode was declared; on success the extracted files become the context's
temporary files. -/
def extractStage (d : RouteDefinition) (c : Ctx) : List Ev × Except ErrorResponse Ctx :=
  if d.multipart then
    ([Ev.extractEv],
      match extractFiles d.filePolicies c.fileParts with
      | Except.error e => Except.error e
      | Except.ok fs => Except.ok { c with tempFiles := fs })
  else ([], Except.ok c)

/-- Modelled from the spec: the Resolve stage; if a resolver is set it is
invoked with the fully validated context; a value is stored in the
resolved-data slot (`req.routeData`), a terminal error short-circuits exactly
like a guard rejection. -/
def resolveStage (d : RouteDefinition) (c : Ctx) : List Ev × Except ErrorResponse Ctx :=
  match d.resolver with
  | none => ([], Except.ok c)
  | some r =>
    ([Ev.resolveEv],
      match r c with
      | Except.ok v => Except.ok { c with routeData := some v }
      | Except.error e => Except.error e)

/-- Sequence a finished stage prefix with the next stage, accumulating the
event trace and short-circuiting on an error. -/
def stepStage (prev : List Ev × Except ErrorResponse Ctx)
    (s : RouteDefinition → Ctx → List Ev × Except ErrorResponse Ctx)
    (d : RouteDefinition) : List Ev × Except ErrorResponse Ctx :=
  match prev with
  | (t, Except.error e) => (t, Except.error e)
  | (t, Except.ok c) =>
    let (t', r) := s d c
    (t ++ t', r)

/-- The normalized incoming request abstraction received from the transport
layer for an already-matched route. -/
structure Request where
  headers : FieldMap
  params : FieldMap
  query : FieldMap
  body : FieldMap
  fileParts : List RawFilePart
deriving DecidableEq

/-- A fresh ExecutionContext for one request; never shared and never
outliving the request. -/
def initCtx (req : Request) : Ctx :=
  { rawParams := req.params, rawQuery := req.query, rawBody := req.body,
    headers := req.headers, fileParts := req.fileParts,
    validatedParams := none, validatedQuery := none, validatedBody := none,
    tempFiles := [], routeData := none, session := none }

/-- The pipeline after the Authenticate stage. -/
def afterAuth (d : RouteDefinition) (req : Request) : List Ev × Except ErrorResponse Ctx :=
  authStage d (initCtx req)

/-- The pipeline after the Guard stage. -/
def afterGuards (d : RouteDefinition) (req : Request) : List Ev × Except ErrorResponse Ctx :=
  stepStage (afterAuth d req) guardStage d

/-- The pipeline after the Validate stage. -/
def afterValidate (d : RouteDefinition) (req : Request) : List Ev × Except ErrorResponse Ctx :=
  stepStage (afterGuards d req) validateStage d

/-- The pipeline after the ExtractFiles stage. -/
def afterExtract (d : RouteDefinition) (req : Request) : List Ev × Except ErrorResponse Ctx :=
  stepStage (afterValidate d req) extractStage d

/-- The pipeline after the Resolve stage. -/
def afterResolve (d : RouteDefinition) (req : Request) : List Ev × Except ErrorResponse Ctx :=
  stepStage (afterExtract d req) resolveStage d

/-- Modelled from the spec: the Handle stage: invoke the handler with the
validated context (including resolved data); it returns a (status, payload)
pair or throws a terminal error, and either way the outcome goes to the
Respond stage. -/
def handleStage (d : RouteDefinition) (tr : List Ev) (c : Ctx) : PipelineResult :=
  match d.handler c with
  | Except.error e => finish d (tr ++ [Ev.handleEv]) (errOutcome e)
  | Except.ok (st, payload) => finish d (tr ++ [Ev.handleEv]) (st, RespBody.json payload)

/-- Modelled from the spec: the per-request pipeline state machine:
Authenticate, Guard, Validate, ExtractFiles, Resolve, Handle, Respond, each
stage either advancing or short-circuiting to Respond with its error. -/
def runPipeline (d : RouteDefinition) (req : Request) : PipelineResult :=
  match afterResolve d req with
  | (tr, Except.error e) => finish d tr (errOutcome e)
  | (tr, Except.ok c) => handleStage d tr c

/-- The registration key of a route: method + path + version. -/
def routeKey (d : RouteDefinition) : HttpMethod × String × String :=
  (d.method, d.path, d.version)

/-- Modelled from the spec: the startup errors of the Route Registry:
registering a colliding (method, path, version) key, or registering after the
registry was finalized (closed for writes). -/
inductive RegError
| duplicateRoute
| registryClosed
deriving DecidableEq

/-- Modelled from the spec: the Route Registry: the order-preserving sequence
of finalized RouteDefinitions collected at startup, plus the open/closed
two-phase lifecycle flag. -/
structure Registry where
  routes : List RouteDefinition
  finalized : Bool

/-- The empty, still-open registry at process start. -/
def Registry.empty : Registry := { routes := [], finalized := false }

/-- Modelled from the spec: `register(def)` fails with DuplicateRouteError if
(method, path, version) collides with an already-registered definition, fails
once the registry has been finalized (closed for writes), and otherwise
appends the definition; a failed call leaves the registry unchanged. -/
def Registry.register (r : Registry) (d : RouteDefinition) : Registry × Option RegError :=
  if r.routes.any (fun d' => decide (routeKey d' = routeKey d)) then
    (r, some RegError.duplicateRoute)
  else if r.finalized then (r, some RegError.registryClosed)
  else ({ r with routes := r.routes ++ [d] }, none)

/-- Modelled from the spec: `finalize()` closes the registry for writes. -/
def Registry.finalize (r : Registry) : Registry := { r with finalized := true }

/-- Modelled from the spec: `all()` exposes the order-preserving sequence of
registered RouteDefinitions to the transport layer. -/
def Registry.all (r : Registry) : List RouteDefinition := r.routes

/-- The operations that can touch a registry after startup begins. -/
inductive RegOp
| register (d : RouteDefinition)
| finalize

/-- Apply one registry operation, keeping the (possibly unchanged) registry. -/
def applyRegOp (r : Registry) : RegOp → Registry
  | RegOp.register d => (r.register d).1
  | RegOp.finalize => r.finalize

/-- Apply a sequence of registry operations in order. -/
def applyRegOps (r : Registry) (ops : List RegOp) : Registry :=
  ops.foldl applyRegOp r

/-- Modelled from the spec: startup registers every module's routes in order,
aborting with a fatal error on the first registration failure, and finalizes
the registry once all modules have contributed. -/
def startupGo (r : Registry) : List RouteDefinition → Except RegError Registry
  | [] => Except.ok r.finalize
  | d :: rest =>
    match r.register d with
    | (r', none) => startupGo r' rest
    | (_, some e) => Except.error e

/-- Run startup from the empty registry. -/
def startup (defs : List RouteDefinition) : Except RegError Registry :=
  startupGo Registry.empty defs

/-- Modelled from the spec: build-time misuse errors of the fluent builder,
fatal at startup, plus the rejection of any mutation attempted on an
already-built definition. -/
inductive ConstructionError
| duplicateStatusCode
| filePolicyWithoutMultipart
| handlerAlreadySet
| resolverAlreadySet
| noHandler
| badPath
| authWithoutGuard
| alreadyBuilt
deriving DecidableEq

/-- Modelled from the spec: the mutable draft accumulated by the chainable
builder API during the Building phase. -/
structure RouteDraft where
  method : Option HttpMethod
  path : Option String
  version : Option String
  codes : List (Nat × ObjSchema)
  paramsSchema : Option ObjSchema
  querySchema : Option ObjSchema
  bodySchema : Option ObjSchema
  auth : Option AuthPolicy
  guards : List Guard
  resolver : Option Resolver
  multipart : Bool
  filePolicies : List (String × FilePolicy)
  responseMode : ResponseMode
  handler : Option Handler

/-- The empty draft produced by the builder entry point. -/
def RouteDraft.empty : RouteDraft :=
  { method := none, path := none, version := none, codes := [],
    paramsSchema := none, querySchema := none, bodySchema := none,
    auth := none, guards := [], resolver := none, multipart := false,
    filePolicies := [], responseMode := ResponseMode.structured, handler := none }

/-- The configuration calls of the chainable builder API. -/
inductive BuilderOp
| setMethodPath (m : HttpMethod) (p : String)
| setVersion (v : String)
| addCode (status : Nat) (sch : ObjSchema)
| setParams (sch : ObjSchema)
| setQuery (sch : ObjSchema)
| setBody (sch : ObjSchema)
| addGuard (g : Guard)
| setResolver (r : Resolver)
| setAuth (a : AuthPolicy)
| acceptMultipart
| addFilePolicy (field : String) (pol : FilePolicy)
| setResponseMode (m : ResponseMode)
| setHandler (h : Handler)

/-- Modelled from the spec: each configuration call validates its own input
immediately and fails fast: a duplicate status-code registration, a
file-upload policy without multipart mode, a second resolver or a second
handler are construction errors. -/
def applyDraftOp (dr : RouteDraft) : BuilderOp → Except ConstructionError RouteDraft
  | BuilderOp.setMethodPath m p => Except.ok { dr with method := some m, path := some p }
  | BuilderOp.setVersion v => Except.ok { dr with version := some v }
  | BuilderOp.addCode st sch =>
    if (dr.codes.lookup st).isSome then Except.error ConstructionError.duplicateStatusCode
    else Except.ok { dr with codes := dr.codes ++ [(st, sch)] }
  | BuilderOp.setParams sch => Except.ok { dr with paramsSchema := some sch }
  | BuilderOp.setQuery sch => Except.ok { dr with querySchema := some sch }
  | BuilderOp.setBody sch => Except.ok { dr with bodySchema := some sch }
  | BuilderOp.addGuard g => Except.ok { dr with guards := dr.guards ++ [g] }
  | BuilderOp.setResolver r =>
    if dr.resolver.isSome then Except.error ConstructionError.resolverAlreadySet
    else Except.ok { dr with resolver := some r }
  | BuilderOp.setAuth a => Except.ok { dr with auth := some a }
  | BuilderOp.acceptMultipart => Except.ok { dr with multipart := true }
  | BuilderOp.addFilePolicy field pol =>
    if dr.multipart then Except.ok { dr with filePolicies := dr.filePolicies ++ [(field, pol)] }
    else Except.error ConstructionError.filePolicyWithoutMultipart
  | BuilderOp.setResponseMode m => Except.ok { dr with responseMode := m }
  | BuilderOp.setHandler h =>
    if dr.handler.isSome then Except.error ConstructionError.handlerAlreadySet
    else Except.ok { dr with handler := some h }

/-- Modelled from the spec: the finalize conversion (`build()`): the handler
must be set, the path must be syntactically valid (leading slash), a
file-upload policy requires multipart mode, and a declared auth strategy with
zero guards requires the standard forbidden (403) response contract. -/
def buildRoute (dr : RouteDraft) : Except ConstructionError RouteDefinition :=
  match dr.method, dr.path, dr.handler with
  | some m, some p, some h =>
    if !(p.startsWith "/") then Except.error ConstructionError.badPath
    else if !dr.filePolicies.isEmpty && !dr.multipart then
      Except.error ConstructionError.filePolicyWithoutMultipart
    else if dr.auth.isSome && dr.guards.isEmpty && (dr.codes.lookup 403).isNone then
      Except.error ConstructionError.authWithoutGuard
    else
      Except.ok
        { method := m, path := p, version := dr.version.getD "",
          codes := dr.codes, paramsSchema := dr.paramsSchema,
          querySchema := dr.querySchema, bodySchema := dr.bodySchema,
          auth := dr.auth, guards := dr.guards, resolver := dr.resolver,
          multipart := dr.multipart, filePolicies := dr.filePolicies,
          responseMode := dr.responseMode, handler := h }
  | _, _, _ => Except.error ConstructionError.noHandler

/-- Modelled from the spec: the two phases of a route's life: the mutable
Building draft, and the immutable Built definition. -/
inductive RoutePhase
| building (dr : RouteDraft)
| built (d : RouteDefinition)

/-- Modelled from the spec: applying a configuration call to a route in its
current phase. During Building, the call mutates the draft (or fails fast,
leaving it unchanged); once Built, every mutator is rejected and the
definition is untouched: immutability is enforced by the phase type. -/
def applyPhaseOp (s : RoutePhase) (op : BuilderOp) : RoutePhase × Option ConstructionError :=
  match s with
  | RoutePhase.built d => (RoutePhase.built d, some ConstructionError.alreadyBuilt)
  | RoutePhase.building dr =>
    match applyDraftOp dr op with
    | Except.ok dr' => (RoutePhase.building dr', none)
    | Except.error e => (RoutePhase.building dr, some e)

/-- Apply a sequence of configuration calls to a phased route. -/
def applyPhaseOps (s : RoutePhase) (ops : List BuilderOp) : RoutePhase :=
  ops.foldl (fun s op => (applyPhaseOp s op).1) s

/-- Modelled from the spec: the value returned by `useResponseSchemas`:
pre-configured response codes for the success and error cases, and the send
helpers producing a success outcome and an error response. -/
structure ResponseSchemas where
  codes : List (Nat × ObjSchema)
  sendSuccess : FieldMap → Nat × FieldMap
  sendError : String → List FieldError → ErrorResponse

/-- Modelled from the spec: `useResponseSchemas(successSchema, errorSchema)`
registers only the essential response codes 200, 400, 401, 403 and exposes
the send helpers. -/
def useResponseSchemas (success err : ObjSchema) : ResponseSchemas :=
  { codes := buildExtraResponseCodes success err,
    sendSuccess := fun p => (200, p),
    sendError := fun m errs => { status := 400, message := m, fieldErrors := errs } }

/-- True when the part's size exceeds the maximum file size of the policy
declared for its field (a field with no policy is unconstrained). -/
def exceedsPolicy (policies : List (String × FilePolicy)) (p : RawFilePart) : Bool :=
  match policies.lookup p.fieldname with
  | some pol => sizeExceeded pol p
  | none => false

/-!  Concrete sample routes and requests used to evaluate the model. -/

/-- A concrete object schema with one required field. -/
def sampleSchema : ObjSchema :=
  { required := ["id"], declared := ["id"], allowExtra := false }

/-- A concrete handler returning a declared 200 outcome. -/
def sampleHandler : Handler := fun _ => Except.ok (200, [("id", "1")])

/-- A concrete response-contract map declaring 200, 400, 403, 404 and 413. -/
def sampleCodes : List (Nat × ObjSchema) :=
  [(200, sampleSchema), (400, ResponseErrorSchema), (403, ResponseErrorSchema),
   (404, ResponseErrorSchema), (413, ResponseErrorSchema)]

/-- A concrete baseline route with no guards, schemas, auth or resolver. -/
def sampleRoute : RouteDefinition :=
  { method := HttpMethod.get, path := "/items", version := "1",
    codes := sampleCodes, paramsSchema := none, querySchema := none,
    bodySchema := none, auth := none, guards := [], resolver := none,
    multipart := false, filePolicies := [], responseMode := ResponseMode.structured,
    handler := sampleHandler }

/-- A concrete empty request. -/
def sampleReq : Request :=
  { headers := [], params := [], query := [], body := [], fileParts := [] }

/-- The context of `sampleReq` after successful validation of the absent
schemas. -/
def valCtx : Ctx :=
  { (initCtx sampleReq) with
    validatedParams := some []
    validatedQuery := some []
    validatedBody := some [] }

/-- A guard that always allows. -/
def allowGuard : Guard := fun c => GuardOutcome.allow c

/-- A concrete Forbidden error. -/
def forbidden : ErrorResponse := { status := 403, message := "Forbidden", fieldErrors := [] }

/-- A guard that always rejects with Forbidden. -/
def rejectGuard : Guard := fun _ => GuardOutcome.reject forbidden

/-- The baseline route protected by an allowing then a rejecting guard. -/
def guardRoute : RouteDefinition := { sampleRoute with guards := [allowGuard, rejectGuard] }

/-- A handler returning the undeclared status 201. -/
def created201Handler : Handler := fun _ => Except.ok (201, [])

/-- The baseline route with a handler producing an undeclared status. -/
def badStatusRoute : RouteDefinition := { sampleRoute with handler := created201Handler }

/-- The baseline route with a strict body schema. -/
def strictBodyRoute : RouteDefinition := { sampleRoute with bodySchema := some sampleSchema }

/-- A request carrying a body field not declared by `sampleSchema`. -/
def extraFieldReq : Request :=
  { headers := [], params := [], query := [],
    body := [("id", "1"), ("hack", "x")], fileParts := [] }

/-- A resolver that produces a record. -/
def okResolver : Resolver := fun _ => Except.ok [("rec", "r1")]

/-- The baseline route with a succeeding resolver. -/
def resolverRoute : RouteDefinition := { sampleRoute with resolver := some okResolver }

/-- A concrete NotFound error. -/
def notFound : ErrorResponse := { status := 404, message := "Not Found", fieldErrors := [] }

/-- A resolver that throws NotFound. -/
def errResolver : Resolver := fun _ => Except.error notFound

/-- The baseline route with a failing resolver. -/
def errResolverRoute : RouteDefinition := { sampleRoute with resolver := some errResolver }

/-- A registry already holding the baseline route and still open. -/
def dupRegistry : Registry := { routes := [sampleRoute], finalized := false }

/-- A registry already holding the baseline route and finalized. -/
def closedRegistry : Registry := { routes := [sampleRoute], finalized := true }

/-- A concrete file policy limiting uploads to two bytes. -/
def filePol : FilePolicy := { maxFileSize := some 2, accept := [], maxFiles := none }

/-- The baseline route in multipart mode with the two-byte policy. -/
def upRoute : RouteDefinition :=
  { sampleRoute with multipart := true, filePolicies := [("file", filePol)] }

/-- A three-byte part exceeding the two-byte policy. -/
def bigPart : RawFilePart :=
  { fieldname := "file", filename := "a.png", encoding := "7bit",
    mimetype := "image/png", content := [1, 2, 3] }

/-- A two-byte part within the policy. -/
def okPart : RawFilePart :=
  { fieldname := "file", filename := "b.png", encoding := "7bit",
    mimetype := "image/png", content := [1, 2] }

/-- A multipart request containing the oversized part. -/
def upReq : Request :=
  { headers := [], params := [], query := [], body := [], fileParts := [bigPart] }

/-- The context of `upReq` after successful validation. -/
def valCtxUp : Ctx :=
  { (initCtx upReq) with
    validatedParams := some []
    validatedQuery := some []
    validatedBody := some [] }

/-!  Helper lemmas about the guard stage traces. -/

theorem runGuardsFrom_ok_trace (gs : List Guard) :
    ∀ i c tr c', runGuardsFrom gs i c = (tr, Except.ok c') →
      tr = (List.range gs.length).map (fun j => Ev.guardEv (i + j)) := by
  induction gs with
  | nil =>
    intro i c tr c' h
    simp [runGuardsFrom] at h
    simp [h.1]
  | cons g rest ih =>
    intro i c tr c' h
    cases hg : g c with
    | allow c'' =>
      simp only [runGuardsFrom, hg] at h
      rcases hrec : runGuardsFrom rest (i + 1) c'' with ⟨tr', r⟩
      rw [hrec] at h
      simp at h
      obtain ⟨htr, hr⟩ := h
      subst hr
      have := ih (i + 1) c'' tr' c' hrec
      subst this
      subst htr
      have hshift : ∀ j, Ev.guardEv (i + (j + 1)) = Ev.guardEv (i + 1 + j) := by
        intro j; congr 1; omega
      simp [List.range_succ_eq_map, List.map_map, Function.comp, hshift]
    | reject e =>
      simp only [runGuardsFrom, hg] at h
      simp at h

theorem runGuardsFrom_error_spec (gs : List Guard) :
    ∀ i c tr e, runGuardsFrom gs i c = (tr, Except.error e) →
      ∃ n, ∃ hn : n < gs.length, ∃ c',
        tr = (List.range (n + 1)).map (fun j => Ev.guardEv (i + j)) ∧
        runGuardsFrom (gs.take n) i c =
          ((List.range n).map (fun j => Ev.guardEv (i + j)), Except.ok c') ∧
        gs.get ⟨n, hn⟩ c' = GuardOutcome.reject e := by
  induction gs with
  | nil =>
    intro i c tr e h
    simp [runGuardsFrom] at h
  | cons g rest ih =>
    intro i c tr e h
    cases hg : g c with
    | allow c'' =>
      simp only [runGuardsFrom, hg] at h
      rcases hrec : runGuardsFrom rest (i + 1) c'' with ⟨tr', r⟩
      rw [hrec] at h
      simp at h
      obtain ⟨htr, hr⟩ := h
      subst hr
      obtain ⟨n, hn, c', htr', htake, hget⟩ := ih (i + 1) c'' tr' e hrec
      refine ⟨n + 1, by simpa using Nat.succ_lt_succ hn, c', ?_, ?_, ?_⟩
      · subst htr htr'
        have hshift : ∀ j, Ev.guardEv (i + (j + 1)) = Ev.guardEv (i + 1 + j) := by
          intro j; congr 1; omega
        simp [List.range_succ_eq_map, List.map_map, Function.comp, hshift]
      · show runGuardsFrom (g :: rest.take n) i c = _
        simp only [runGuardsFrom, hg, htake]
        have hshift : ∀ j, Ev.guardEv (i + (j + 1)) = Ev.guardEv (i + 1 + j) := by
          intro j; congr 1; omega
        simp [List.range_succ_eq_map, List.map_map, Function.comp, hshift]
      · simpa using hget
    | reject e' =>
      simp only [runGuardsFrom, hg] at h
      simp at h
      obtain ⟨htr, he⟩ := h
      refine ⟨0, by simp, c, ?_, ?_, ?_⟩
      · subst htr; simp [List.range_succ]
      · simp [runGuardsFrom]
      · simp [hg, he]

theorem runGuardsFrom_events (gs : List Guard) :
    ∀ i c, ∀ x ∈ (runGuardsFrom gs i c).1, evStage x = 1 := by
  induction gs with
  | nil => intro i c x hx; simp [runGuardsFrom] at hx
  | cons g rest ih =>
    intro i c x hx
    cases hg : g c with
    | allow c' =>
      simp only [runGuardsFrom, hg] at hx
      rcases hrec : runGuardsFrom rest (i + 1) c' with ⟨tr', r⟩
      rw [hrec] at hx
      simp at hx
      rcases hx with hx | hx
      · subst hx; rfl
      · exact ih (i + 1) c' x (by rw [hrec]; exact hx)
    | reject e =>
      simp only [runGuardsFrom, hg] at hx
      simp at hx
      subst hx; rfl

/-!  Every event emitted up to a given stage belongs to that stage or an
earlier one; this is the ordering backbone of the state machine. -/

theorem authStage_events (d : RouteDefinition) (c : Ctx) :
    ∀ x ∈ (authStage d c).1, evStage x = 0 := by
  intro x hx
  cases hd : d.auth with
  | none => simp [authStage, hd] at hx
  | some pol =>
    simp [authStage, hd] at hx
    subst hx; rfl

theorem validateStage_events (d : RouteDefinition) (c : Ctx) :
    ∀ x ∈ (validateStage d c).1, evStage x = 2 := by
  intro x hx
  unfold validateStage at hx
  dsimp only at hx
  split_ifs at hx <;> fin_cases hx <;> rfl

theorem extractStage_events (d : RouteDefinition) (c : Ctx) :
    ∀ x ∈ (extractStage d c).1, evStage x = 3 := by
  intro x hx
  unfold extractStage at hx
  split_ifs at hx <;> simp at hx
  subst hx; rfl

theorem resolveStage_events (d : RouteDefinition) (c : Ctx) :
    ∀ x ∈ (resolveStage d c).1, evStage x = 4 := by
  intro x hx
  cases hd : d.resolver with
  | none => simp [resolveStage, hd] at hx
  | some r =>
    simp [resolveStage, hd] at hx
    subst hx; rfl

theorem stepStage_events (prev : List Ev × Except ErrorResponse Ctx)
    (s : RouteDefinition → Ctx → List Ev × Except ErrorResponse Ctx)
    (d : RouteDefinition) (n m : Nat)
    (hp : ∀ x ∈ prev.1, evStage x ≤ n)
    (hs : ∀ c, ∀ x ∈ (s d c).1, evStage x ≤ m) :
    ∀ x ∈ (stepStage prev s d).1, evStage x ≤ max n m := by
  intro x hx
  rcases prev with ⟨t, r⟩
  cases r with
  | error e =>
    simp [stepStage] at hx
    exact le_trans (hp x hx) (le_max_left _ _)
  | ok c =>
    rcases hsc : s d c with ⟨t', r'⟩
    simp [stepStage, hsc] at hx
    rcases hx with hx | hx
    · exact le_trans (hp x hx) (le_max_left _ _)
    · exact le_trans (hs c x (by rw [hsc]; exact hx)) (le_max_right _ _)

theorem afterAuth_events (d : RouteDefinition) (req : Request) :
    ∀ x ∈ (afterAuth d req).1, evStage x ≤ 0 := by
  intro x hx
  exact le_of_eq (authStage_events d (initCtx req) x hx)

theorem afterGuards_events (d : RouteDefinition) (req : Request) :
    ∀ x ∈ (afterGuards d req).1, evStage x ≤ 1 := by
  have h := stepStage_events (afterAuth d req) guardStage d 0 1
    (afterAuth_events d req)
    (fun c x hx => le_of_eq (runGuardsFrom_events d.guards 0 c x hx))
  simpa [afterGuards] using h

theorem afterValidate_events (d : RouteDefinition) (req : Request) :
    ∀ x ∈ (afterValidate d req).1, evStage x ≤ 2 := by
  have h := stepStage_events (afterGuards d req) validateStage d 1 2
    (afterGuards_events d req)
    (fun c x hx => le_of_eq (validateStage_events d c x hx))
  simpa [afterValidate] using h

theorem afterExtract_events (d : RouteDefinition) (req : Request) :
    ∀ x ∈ (afterExtract d req).1, evStage x ≤ 3 := by
  have h := stepStage_events (afterValidate d req) extractStage d 2 3
    (afterValidate_events d req)
    (fun c x hx => le_of_eq (extractStage_events d c x hx))
  simpa [afterExtract] using h

theorem afterResolve_events (d : RouteDefinition) (req : Request) :
    ∀ x ∈ (afterResolve d req).1, evStage x ≤ 4 := by
  have h := stepStage_events (afterExtract d req) resolveStage d 3 4
    (afterExtract_events d req)
    (fun c x hx => le_of_eq (resolveStage_events d c x hx))
  simpa [afterResolve] using h

/-!  Unfolding the pipeline when a stage short-circuits. -/

theorem stepStage_error (t : List Ev) (e : ErrorResponse)
    (s : RouteDefinition → Ctx → List Ev × Except ErrorResponse Ctx)
    (d : RouteDefinition) :
    stepStage (t, Except.error e) s d = (t, Except.error e) := rfl

theorem stepStage_ok (t : List Ev) (c : Ctx)
    (s : RouteDefinition → Ctx → List Ev × Except ErrorResponse Ctx)
    (d : RouteDefinition) :
    stepStage (t, Except.ok c) s d = (t ++ (s d c).1, (s d c).2) := by
  rcases hsc : s d c with ⟨t', r⟩
  simp [stepStage, hsc]

theorem runPipeline_of_error (d : RouteDefinition) (req : Request)
    (tr : List Ev) (e : ErrorResponse)
    (h : afterResolve d req = (tr, Except.error e)) :
    runPipeline d req = finish d tr (errOutcome e) := by
  simp [runPipeline, h]

theorem finish_trace (d : RouteDefinition) (tr : List Ev) (o : Outcome) :
    (finish d tr o).trace = tr ++ [Ev.respondEv] := by
  unfold finish
  rcases h : respondStage d o with ⟨resp, logs⟩
  simp

theorem finish_retained (d : RouteDefinition) (tr : List Ev) (o : Outcome) :
    (finish d tr o).retained = [] := by
  unfold finish
  rcases h : respondStage d o with ⟨resp, logs⟩
  simp

theorem finish_response_of_declared (d : RouteDefinition) (tr : List Ev)
    (o : Outcome) (h : (d.codes.lookup o.1).isSome) :
    (finish d tr o).response = { status := o.1, body := o.2 } := by
  unfold finish respondStage
  simp [h]

/-- Registering on a finalized registry always fails and leaves it unchanged. -/
theorem register_closed (r : Registry) (hf : r.finalized = true)
    (d : RouteDefinition) :
    ((r.register d).1 = r ∧ (r.register d).2.isSome = true) := by
  unfold Registry.register
  split_ifs <;> simp_all

theorem runPipeline_extract_error (d : RouteDefinition) (req : Request)
    (t : List Ev) (e : ErrorResponse)
    (h : afterExtract d req = (t, Except.error e)) :
    runPipeline d req = finish d t (errOutcome e) := by
  have hr : afterResolve d req = (t, Except.error e) := by
    unfold afterResolve; rw [h]; rfl
  exact runPipeline_of_error d req t e hr

theorem runPipeline_validate_error (d : RouteDefinition) (req : Request)
    (t : List Ev) (e : ErrorResponse)
    (h : afterValidate d req = (t, Except.error e)) :
    runPipeline d req = finish d t (errOutcome e) := by
  have hx : afterExtract d req = (t, Except.error e) := by
    unfold afterExtract; rw [h]; rfl
  exact runPipeline_extract_error d req t e hx

theorem runPipeline_guards_error (d : RouteDefinition) (req : Request)
    (t : List Ev) (e : ErrorResponse)
    (h : afterGuards d req = (t, Except.error e)) :
    runPipeline d req = finish d t (errOutcome e) := by
  have hv : afterValidate d req = (t, Except.error e) := by
    unfold afterValidate; rw [h]; rfl
  exact runPipeline_validate_error d req t e hv

/-- C9: For every success schema and error schema, `buildResponseCodes`
registers exactly the status codes 200, 400, 401, 403, 404, 409, 422, 429,
500, 503, each with a schema, while `buildExtraResponseCodes` and the `codes`
value produced by `useResponseSchemas` register exactly the status codes
200, 400, 401, 403. -/
theorem response_code_builders_exact (success err : ObjSchema) :
    (buildResponseCodes success err).map Prod.fst =
      [200, 400, 401, 403, 404, 409, 422, 429, 500, 503] ∧
    (∀ c ∈ (buildResponseCodes success err).map Prod.fst,
      ((buildResponseCodes success err).lookup c).isSome = true) ∧
    (buildExtraResponseCodes success err).map Prod.fst = [200, 400, 401, 403] ∧
    (∀ c ∈ (buildExtraResponseCodes success err).map Prod.fst,
      ((buildExtraResponseCodes success err).lookup c).isSome = true) ∧
    (useResponseSchemas success err).codes = buildExtraResponseCodes success err := by
  refine ⟨rfl, ?_, rfl, ?_, rfl⟩
  · intro c hc
    fin_cases hc <;> rfl
  · intro c hc
    fin_cases hc <;> rfl

/-- C8: A RouteDefinition is mutable only while it is in the Building phase;
once Built, every configuration call is rejected with an alreadyBuilt
construction error and no sequence of configuration calls changes any field
of the finalized definition. -/
theorem built_definition_immutable :
    (∀ (d : RouteDefinition) (op : BuilderOp),
      applyPhaseOp (RoutePhase.built d) op =
        (RoutePhase.built d, some ConstructionError.alreadyBuilt)) ∧
    (∀ (d : RouteDefinition) (ops : List BuilderOp),
      applyPhaseOps (RoutePhase.built d) ops = RoutePhase.built d) := by
  constructor
  · intro d op; rfl
  · intro d ops
    induction ops with
    | nil => rfl
    | cons op rest ih => simpa [applyPhaseOps, applyPhaseOp] using ih

/-- C5: For every registry state and every route definition whose
(method, path, version) key equals the key of an already-registered
definition, register fails with DuplicateRouteError, the registry's contents
are unchanged by the failed call, and during startup this failure is fatal:
startup aborts with the error. -/
theorem register_duplicate_fatal (r : Registry) (d : RouteDefinition)
    (rest : List RouteDefinition)
    (hdup : ∃ d' ∈ r.routes, routeKey d' = routeKey d) :
    r.register d = (r, some RegError.duplicateRoute) ∧
    startupGo r (d :: rest) = Except.error RegError.duplicateRoute := by
  have hany : r.routes.any (fun d' => decide (routeKey d' = routeKey d)) = true := by
    rcases hdup with ⟨d', hd', hk⟩
    exact List.any_eq_true.mpr ⟨d', hd', by simp [hk]⟩
  have hreg : r.register d = (r, some RegError.duplicateRoute) := by
    unfold Registry.register
    simp [hany]
  refine ⟨hreg, ?_⟩
  unfold startupGo
  rw [hreg]

/-- C6: Once the registry has been finalized it is permanently closed for
writes: in every state reachable by further register/finalize operations the
set of routes is unchanged, the registry stays finalized, and every register
call fails and leaves the registry unchanged. -/
theorem finalized_registry_permanently_closed (r : Registry)
    (hf : r.finalized = true) :
    (∀ ops : List RegOp, applyRegOps r ops = r) ∧
    (∀ (ops : List RegOp) (d : RouteDefinition),
      ((applyRegOps r ops).register d).1 = applyRegOps r ops ∧
      ((applyRegOps r ops).register d).2.isSome = true) ∧
    (∀ ops : List RegOp, (applyRegOps r ops).routes = r.routes ∧
      (applyRegOps r ops).finalized = true) := by
  have hfix : ∀ ops : List RegOp, applyRegOps r ops = r := by
    intro ops
    induction ops with
    | nil => rfl
    | cons op rest ih =>
      have hstep : applyRegOp r op = r := by
        cases op with
        | register d => exact (register_closed r hf d).1
        | finalize =>
          cases r
          simp_all [applyRegOp, Registry.finalize]
      simpa [applyRegOps, hstep] using ih
  refine ⟨hfix, ?_, ?_⟩
  · intro ops d
    rw [hfix ops]
    exact register_closed r hf d
  · intro ops
    rw [hfix ops]
    exact ⟨rfl, hf⟩

/-- C2: For every request outcome reaching the Respond stage, if its status
code is not a key of the route's response-contract map, the pipeline logs a
ContractViolation and returns status 500 with the generic internal-error
body, never writing the undeclared status; in particular a handler returning
an undeclared status on a request that reached the handler yields a logged
ContractViolation and a 500 response. -/
theorem respond_contract_violation :
    (∀ (d : RouteDefinition) (o : Outcome), (d.codes.lookup o.1).isNone = true →
      respondStage d o = ({ status := 500, body := RespBody.internalError },
        [LogEntry.contractViolation o.1]) ∧
      (o.1 ≠ 500 → (respondStage d o).1.status ≠ o.1)) ∧
    (∀ (d : RouteDefinition) (req : Request) (tr : List Ev) (c : Ctx)
        (st : Nat) (p : FieldMap),
      afterResolve d req = (tr, Except.ok c) →
      d.handler c = Except.ok (st, p) →
      (d.codes.lookup st).isNone = true →
      (runPipeline d req).response = { status := 500, body := RespBody.internalError } ∧
      (runPipeline d req).logs = [LogEntry.contractViolation st]) := by
  have hmain : ∀ (d : RouteDefinition) (o : Outcome), (d.codes.lookup o.1).isNone = true →
      respondStage d o = ({ status := 500, body := RespBody.internalError },
        [LogEntry.contractViolation o.1]) := by
    intro d o h
    unfold respondStage
    simp [Option.isNone_iff_eq_none.mp h]
  constructor
  · intro d o h
    refine ⟨hmain d o h, ?_⟩
    intro hne
    rw [hmain d o h]
    simpa using fun hcontra => hne hcontra.symm
  · intro d req tr c st p hres hh hlook
    have : runPipeline d req = finish d (tr ++ [Ev.handleEv]) (st, RespBody.json p) := by
      simp [runPipeline, hres, handleStage, hh]
    rw [this]
    unfold finish
    rw [hmain d (st, RespBody.json p) hlook]
    exact ⟨rfl, rfl⟩

/-- C1: For every request on a route with guards, the guards are invoked
sequentially in their declaration order, and if some guard returns a
non-allow result, that guard's error response becomes the pipeline outcome
and no later guard, the resolver, and the handler are ever invoked for that
request. -/
theorem guards_in_order_and_short_circuit
    (d : RouteDefinition) (req : Request) (ta : List Ev) (c1 : Ctx)
    (hauth : afterAuth d req = (ta, Except.ok c1)) :
    (∀ tg c2, runGuardsFrom d.guards 0 c1 = (tg, Except.ok c2) →
      tg = (List.range d.guards.length).map Ev.guardEv) ∧
    (∀ tg e, runGuardsFrom d.guards 0 c1 = (tg, Except.error e) →
      ∃ n, ∃ hn : n < d.guards.length, ∃ c',
        tg = (List.range (n + 1)).map Ev.guardEv ∧
        runGuardsFrom (d.guards.take n) 0 c1 =
          ((List.range n).map Ev.guardEv, Except.ok c') ∧
        d.guards.get ⟨n, hn⟩ c' = GuardOutcome.reject e ∧
        runPipeline d req = finish d (ta ++ tg) (errOutcome e) ∧
        (∀ j, Ev.guardEv j ∈ (runPipeline d req).trace → j ≤ n) ∧
        Ev.resolveEv ∉ (runPipeline d req).trace ∧
        Ev.handleEv ∉ (runPipeline d req).trace ∧
        ((d.codes.lookup e.status).isSome = true →
          (runPipeline d req).response =
            { status := e.status, body := RespBody.errorInfo e.message e.fieldErrors })) := by
  have h0 : authStage d (initCtx req) = (ta, Except.ok c1) := hauth
  have hta : ∀ x ∈ ta, evStage x = 0 := by
    intro x hx'
    have := authStage_events d (initCtx req) x
    rw [h0] at this
    exact this hx'
  constructor
  · intro tg c2 h
    have := runGuardsFrom_ok_trace d.guards 0 c1 tg c2 h
    simpa using this
  · intro tg e h
    obtain ⟨n, hn, c', htr, htake, hget⟩ :=
      runGuardsFrom_error_spec d.guards 0 c1 tg e h
    have htg : ∀ x ∈ tg, evStage x = 1 := by
      intro x hx'
      have := runGuardsFrom_events d.guards 0 c1 x
      rw [h] at this
      exact this hx'
    have hg : afterGuards d req = (ta ++ tg, Except.error e) := by
      unfold afterGuards
      rw [hauth, stepStage_ok]
      simp [guardStage, h]
    have hpipe : runPipeline d req = finish d (ta ++ tg) (errOutcome e) :=
      runPipeline_guards_error d req (ta ++ tg) e hg
    have htrace : (runPipeline d req).trace = (ta ++ tg) ++ [Ev.respondEv] := by
      rw [hpipe]; exact finish_trace d (ta ++ tg) (errOutcome e)
    refine ⟨n, hn, c', by simpa using htr, by simpa using htake, hget, hpipe, ?_, ?_, ?_, ?_⟩
    · intro j hj
      rw [htrace] at hj
      simp at hj
      rcases hj with hj | hj
      · have := hta _ hj; simp [evStage] at this
      · rw [htr] at hj
        simp at hj
        omega
    · intro hmem
      rw [htrace] at hmem
      simp at hmem
      rcases hmem with hm | hm
      · have := hta _ hm; simp [evStage] at this
      · have := htg _ hm; simp [evStage] at this
    · intro hmem
      rw [htrace] at hmem
      simp at hmem
      rcases hmem with hm | hm
      · have := hta _ hm; simp [evStage] at this
      · have := htg _ hm; simp [evStage] at this
    · intro hlook
      rw [hpipe]
      exact finish_response_of_declared d (ta ++ tg) (errOutcome e) hlook

theorem validate_error_consequences (d : RouteDefinition) (req : Request)
    (tg tv : List Ev) (c : Ctx) (e : ErrorResponse)
    (hg : afterGuards d req = (tg, Except.ok c))
    (hv : validateStage d c = (tv, Except.error e)) :
    runPipeline d req = finish d (tg ++ tv) (errOutcome e) ∧
    Ev.resolveEv ∉ (runPipeline d req).trace ∧
    Ev.handleEv ∉ (runPipeline d req).trace ∧
    ((d.codes.lookup e.status).isSome = true →
      (runPipeline d req).response =
        { status := e.status, body := RespBody.errorInfo e.message e.fieldErrors }) := by
  have hval : afterValidate d req = (tg ++ tv, Except.error e) := by
    unfold afterValidate
    rw [hg, stepStage_ok, hv]
  have hpipe : runPipeline d req = finish d (tg ++ tv) (errOutcome e) :=
    runPipeline_validate_error d req (tg ++ tv) e hval
  have htrace : (runPipeline d req).trace = (tg ++ tv) ++ [Ev.respondEv] := by
    rw [hpipe]; exact finish_trace d (tg ++ tv) (errOutcome e)
  have htg : ∀ x ∈ tg, evStage x ≤ 1 := by
    intro x hx'
    have := afterGuards_events d req x
    rw [hg] at this
    exact this hx'
  have htv : ∀ x ∈ tv, evStage x = 2 := by
    intro x hx'
    have := validateStage_events d c x
    rw [hv] at this
    exact this hx'
  refine ⟨hpipe, ?_, ?_, ?_⟩
  · intro hmem
    rw [htrace] at hmem
    simp at hmem
    rcases hmem with hm | hm
    · have := htg _ hm; simp [evStage] at this
    · have := htv _ hm; simp [evStage] at this
  · intro hmem
    rw [htrace] at hmem
    simp at hmem
    rcases hmem with hm | hm
    · have := htg _ hm; simp [evStage] at this
    · have := htv _ hm; simp [evStage] at this
  · intro hlook
    rw [hpipe]
    exact finish_response_of_declared d (tg ++ tv) (errOutcome e) hlook

/-- C3: For every request, the Validate stage checks params, then query,
then body, in that order; the first section that fails produces a 400
BadRequest with structured field-level errors before the resolver or handler
is invoked, and a query or body payload containing a field not declared in
its schema is rejected unless the schema explicitly allows extra fields. -/
theorem validate_in_order_and_strict :
    (∀ (d : RouteDefinition) (req : Request) (tg : List Ev) (c : Ctx),
      afterGuards d req = (tg, Except.ok c) →
      ((validateOpt d.paramsSchema c.rawParams ≠ [] →
        runPipeline d req =
          finish d (tg ++ [Ev.validateEv Sect.params])
            (errOutcome (badRequest (validateOpt d.paramsSchema c.rawParams))) ∧
        Ev.resolveEv ∉ (runPipeline d req).trace ∧
        Ev.handleEv ∉ (runPipeline d req).trace ∧
        ((d.codes.lookup 400).isSome = true →
          (runPipeline d req).response =
            { status := 400, body := RespBody.errorInfo "Bad Request"
                (validateOpt d.paramsSchema c.rawParams) })) ∧
      (validateOpt d.paramsSchema c.rawParams = [] →
        validateOpt d.querySchema c.rawQuery ≠ [] →
        runPipeline d req =
          finish d (tg ++ [Ev.validateEv Sect.params, Ev.validateEv Sect.query])
            (errOutcome (badRequest (validateOpt d.querySchema c.rawQuery))) ∧
        Ev.resolveEv ∉ (runPipeline d req).trace ∧
        Ev.handleEv ∉ (runPipeline d req).trace ∧
        ((d.codes.lookup 400).isSome = true →
          (runPipeline d req).response =
            { status := 400, body := RespBody.errorInfo "Bad Request"
                (validateOpt d.querySchema c.rawQuery) })) ∧
      (validateOpt d.paramsSchema c.rawParams = [] →
        validateOpt d.querySchema c.rawQuery = [] →
        validateOpt d.bodySchema c.rawBody ≠ [] →
        runPipeline d req =
          finish d (tg ++ [Ev.validateEv Sect.params, Ev.validateEv Sect.query,
              Ev.validateEv Sect.body])
            (errOutcome (badRequest (validateOpt d.bodySchema c.rawBody))) ∧
        Ev.resolveEv ∉ (runPipeline d req).trace ∧
        Ev.handleEv ∉ (runPipeline d req).trace ∧
        ((d.codes.lookup 400).isSome = true →
          (runPipeline d req).response =
            { status := 400, body := RespBody.errorInfo "Bad Request"
                (validateOpt d.bodySchema c.rawBody) })))) ∧
    (∀ (sch : ObjSchema) (v : FieldMap) (f : String),
      sch.allowExtra = false → f ∈ v.map Prod.fst →
      sch.declared.contains f = false →
      validateSection sch v ≠ []) ∧
    (∀ (sch : ObjSchema) (v : FieldMap),
      sch.allowExtra = true →
      (∀ f ∈ sch.required, (v.lookup f).isSome = true) →
      validateSection sch v = []) := by
  refine ⟨?_, ?_, ?_⟩
  · intro d req tg c hg
    refine ⟨?_, ?_, ?_⟩
    · intro hpe
      have hv : validateStage d c =
          ([Ev.validateEv Sect.params],
           Except.error (badRequest (validateOpt d.paramsSchema c.rawParams))) := by
        unfold validateStage
        simp [hpe]
      exact validate_error_consequences d req tg _ c _ hg hv
    · intro hp0 hqe
      have hv : validateStage d c =
          ([Ev.validateEv Sect.params, Ev.validateEv Sect.query],
           Except.error (badRequest (validateOpt d.querySchema c.rawQuery))) := by
        unfold validateStage
        simp [hp0, hqe]
      exact validate_error_consequences d req tg _ c _ hg hv
    · intro hp0 hq0 hbe
      have hv : validateStage d c =
          ([Ev.validateEv Sect.params, Ev.validateEv Sect.query, Ev.validateEv Sect.body],
           Except.error (badRequest (validateOpt d.bodySchema c.rawBody))) := by
        unfold validateStage
        simp [hp0, hq0, hbe]
      exact validate_error_consequences d req tg _ c _ hg hv
  · intro sch v f hallow hf hdecl
    have hmem : f ∈ (v.map Prod.fst).filter (fun f => !(sch.declared.contains f)) := by
      refine List.mem_filter.mpr ⟨hf, ?_⟩
      simp only [hdecl]
      rfl
    intro hcontra
    unfold validateSection at hcontra
    rw [hallow] at hcontra
    have h2 := (List.append_eq_nil.mp hcontra).2
    simp only [Bool.false_eq_true, if_false] at h2
    have hnil := List.map_eq_nil_iff.mp h2
    rw [hnil] at hmem
    simp at hmem
  · intro sch v hallow hreq
    unfold validateSection
    rw [hallow]
    have h1 : sch.required.filter (fun f => (v.lookup f).isNone) = [] := by
      rw [List.filter_eq_nil_iff]
      intro f hf
      obtain ⟨x, hx⟩ := Option.isSome_iff_exists.mp (hreq f hf)
      simp [hx]
    rw [h1]
    simp

/-- C4: For every request on a route with a resolver, if the resolver returns
a value, that value is stored as resolved data (`req.routeData`) and the
handler is invoked with it; if the resolver returns or throws a terminal
error response, that response becomes the pipeline outcome and the handler is
never invoked. -/
theorem resolver_supplies_data_or_short_circuits
    (d : RouteDefinition) (req : Request) (tr : List Ev) (c : Ctx)
    (r : Resolver) (hr : d.resolver = some r)
    (hx : afterExtract d req = (tr, Except.ok c)) :
    (∀ v, r c = Except.ok v →
      afterResolve d req =
        (tr ++ [Ev.resolveEv], Except.ok { c with routeData := some v }) ∧
      runPipeline d req =
        handleStage d (tr ++ [Ev.resolveEv]) { c with routeData := some v } ∧
      Ev.handleEv ∈ (runPipeline d req).trace) ∧
    (∀ e, r c = Except.error e →
      runPipeline d req = finish d (tr ++ [Ev.resolveEv]) (errOutcome e) ∧
      Ev.handleEv ∉ (runPipeline d req).trace ∧
      ((d.codes.lookup e.status).isSome = true →
        (runPipeline d req).response =
          { status := e.status, body := RespBody.errorInfo e.message e.fieldErrors })) := by
  have htr : ∀ x ∈ tr, evStage x ≤ 3 := by
    intro x hx'
    have := afterExtract_events d req x
    rw [hx] at this
    exact this hx'
  constructor
  · intro v hv
    have hres : afterResolve d req =
        (tr ++ [Ev.resolveEv], Except.ok { c with routeData := some v }) := by
      unfold afterResolve
      rw [hx, stepStage_ok]
      simp [resolveStage, hr, hv]
    refine ⟨hres, ?_, ?_⟩
    · simp [runPipeline, hres]
    · have hrun : runPipeline d req =
          handleStage d (tr ++ [Ev.resolveEv]) { c with routeData := some v } := by
        simp [runPipeline, hres]
      rw [hrun]
      unfold handleStage
      cases hh : d.handler { c with routeData := some v } with
      | error e => rw [finish_trace]; simp
      | ok outcome =>
        rcases outcome with ⟨st, p⟩
        rw [finish_trace]; simp
  · intro e he
    have hres : afterResolve d req = (tr ++ [Ev.resolveEv], Except.error e) := by
      unfold afterResolve
      rw [hx, stepStage_ok]
      simp [resolveStage, hr, he]
    have hpipe : runPipeline d req = finish d (tr ++ [Ev.resolveEv]) (errOutcome e) :=
      runPipeline_of_error d req (tr ++ [Ev.resolveEv]) e hres
    refine ⟨hpipe, ?_, ?_⟩
    · intro hmem
      rw [hpipe, finish_trace] at hmem
      simp at hmem
      have := htr _ hmem
      simp [evStage] at this
    · intro hlook
      rw [hpipe]
      exact finish_response_of_declared d (tr ++ [Ev.resolveEv]) (errOutcome e) hlook

theorem checkPart_of_exceeds (policies : List (String × FilePolicy))
    (seen : List String) (p : RawFilePart)
    (h : exceedsPolicy policies p = true) :
    checkPart policies seen p = some (fileSizeError p) := by
  unfold exceedsPolicy at h
  unfold checkPart
  cases hl : policies.lookup p.fieldname with
  | none => rw [hl] at h; simp at h
  | some pol =>
    rw [hl] at h
    have h' : sizeExceeded pol p = true := h
    simp [h']

theorem extractGo_error_of_exceeds (policies : List (String × FilePolicy)) :
    ∀ (parts : List RawFilePart) (seen : List String) (i : Nat) (p : RawFilePart),
      p ∈ parts → exceedsPolicy policies p = true →
      ∃ e, extractGo policies seen i parts = Except.error e := by
  intro parts
  induction parts with
  | nil => intro seen i p hp; simp at hp
  | cons q rest ih =>
    intro seen i p hp hex
    cases hq : checkPart policies seen q with
    | some e => exact ⟨e, by simp [extractGo, hq]⟩
    | none =>
      rcases List.mem_cons.mp hp with hpq | hpr
      · subst hpq
        rw [checkPart_of_exceeds policies seen p hex] at hq
        simp at hq
      · obtain ⟨e, he⟩ := ih (q.fieldname :: seen) (i + 1) p hpr hex
        refine ⟨e, ?_⟩
        simp only [extractGo, hq, he]
        rfl

/-- C7: For every multipart request containing an uploaded file that exceeds
the matching field's declared maxFileSize policy, the pipeline rejects the
request (with a file-size error when that file is the first violating part)
before the resolver and the handler run, and after the rejection no temporary
file for that request remains in memory. -/
theorem oversized_file_rejected_before_resolver
    (d : RouteDefinition) (req : Request) (tv : List Ev) (c : Ctx)
    (hmul : d.multipart = true)
    (hval : afterValidate d req = (tv, Except.ok c)) :
    (∀ p ∈ c.fileParts, exceedsPolicy d.filePolicies p = true →
      ∃ e, extractFiles d.filePolicies c.fileParts = Except.error e) ∧
    (∀ (seen : List String) (i : Nat) (p : RawFilePart) (rest : List RawFilePart),
      exceedsPolicy d.filePolicies p = true →
      extractGo d.filePolicies seen i (p :: rest) =
        Except.error (fileSizeError p) ∧ (fileSizeError p).status = 413) ∧
    (∀ e, extractFiles d.filePolicies c.fileParts = Except.error e →
      runPipeline d req = finish d (tv ++ [Ev.extractEv]) (errOutcome e) ∧
      Ev.resolveEv ∉ (runPipeline d req).trace ∧
      Ev.handleEv ∉ (runPipeline d req).trace ∧
      (runPipeline d req).retained = []) := by
  have htv : ∀ x ∈ tv, evStage x ≤ 2 := by
    intro x hx'
    have := afterValidate_events d req x
    rw [hval] at this
    exact this hx'
  refine ⟨?_, ?_, ?_⟩
  · intro p hp hex
    exact extractGo_error_of_exceeds d.filePolicies c.fileParts [] 0 p hp hex
  · intro seen i p rest hex
    refine ⟨?_, rfl⟩
    simp [extractGo, checkPart_of_exceeds d.filePolicies seen p hex]
  · intro e hext
    have hstage : extractStage d c = ([Ev.extractEv], Except.error e) := by
      simp [extractStage, hmul, hext]
    have hx : afterExtract d req = (tv ++ [Ev.extractEv], Except.error e) := by
      unfold afterExtract
      rw [hval, stepStage_ok, hstage]
    have hpipe : runPipeline d req = finish d (tv ++ [Ev.extractEv]) (errOutcome e) :=
      runPipeline_extract_error d req (tv ++ [Ev.extractEv]) e hx
    have htrace : (runPipeline d req).trace =
        (tv ++ [Ev.extractEv]) ++ [Ev.respondEv] := by
      rw [hpipe]; exact finish_trace d (tv ++ [Ev.extractEv]) (errOutcome e)
    refine ⟨hpipe, ?_, ?_, ?_⟩
    · intro hmem
      rw [htrace] at hmem
      simp at hmem
      have := htv _ hmem
      simp [evStage] at this
    · intro hmem
      rw [htrace] at hmem
      simp at hmem
      have := htv _ hmem
      simp [evStage] at this
    · rw [hpipe]
      exact finish_retained d (tv ++ [Ev.extractEv]) (errOutcome e)

theorem extractGo_ok_facts (policies : List (String × FilePolicy)) :
    ∀ (parts : List RawFilePart) (seen : List String) (i : Nat)
      (fs : List UploadFile),
      extractGo policies seen i parts = Except.ok fs →
      fs.map UploadFile.id = List.range' i parts.length ∧
      fs.map UploadFile.buffer = parts.map RawFilePart.content ∧
      fs.map UploadFile.fieldname = parts.map RawFilePart.fieldname ∧
      fs.map UploadFile.filename = parts.map RawFilePart.filename ∧
      fs.map UploadFile.encoding = parts.map RawFilePart.encoding ∧
      fs.map UploadFile.mimetype = parts.map RawFilePart.mimetype ∧
      fs.map UploadFile.filesize = parts.map (fun p => p.content.length) := by
  intro parts
  induction parts with
  | nil =>
    intro seen i fs h
    simp [extractGo] at h
    subst h
    simp
  | cons q rest ih =>
    intro seen i fs h
    cases hq : checkPart policies seen q with
    | some e => simp [extractGo, hq] at h
    | none =>
      simp only [extractGo, hq] at h
      cases hrec : extractGo policies (q.fieldname :: seen) (i + 1) rest with
      | error e => rw [hrec] at h; simp [Except.map] at h
      | ok fs' =>
        rw [hrec] at h
        simp [Except.map] at h
        subst h
        obtain ⟨h1, h2, h3, h4, h5, h6, h7⟩ := ih (q.fieldname :: seen) (i + 1) fs' hrec
        refine ⟨?_, ?_, ?_, ?_, ?_, ?_, ?_⟩ <;>
          simp [mkUpload, List.range'_succ, h1, h2, h3, h4, h5, h6, h7]

/-- C10: For every multipart request accepted by the pipeline, each uploaded
file is delivered to the handler as an entry of `req.tempFiles` whose buffer
field holds the file's complete content in memory, together with a unique id
and the metadata fields fieldname, filename, encoding, mimetype and filesize;
files are fully buffered rather than left on a stream. -/
theorem tempFiles_fully_buffered_with_metadata :
    (∀ (policies : List (String × FilePolicy)) (parts : List RawFilePart)
        (fs : List UploadFile),
      extractFiles policies parts = Except.ok fs →
      fs.length = parts.length ∧
      fs.map UploadFile.buffer = parts.map RawFilePart.content ∧
      fs.map UploadFile.fieldname = parts.map RawFilePart.fieldname ∧
      fs.map UploadFile.filename = parts.map RawFilePart.filename ∧
      fs.map UploadFile.encoding = parts.map RawFilePart.encoding ∧
      fs.map UploadFile.mimetype = parts.map RawFilePart.mimetype ∧
      fs.map UploadFile.filesize = parts.map (fun p => p.content.length) ∧
      (fs.map UploadFile.id).Nodup) ∧
    (∀ (d : RouteDefinition) (c : Ctx) (fs : List UploadFile),
      d.multipart = true →
      extractFiles d.filePolicies c.fileParts = Except.ok fs →
      extractStage d c = ([Ev.extractEv], Except.ok { c with tempFiles := fs })) := by
  constructor
  · intro policies parts fs h
    obtain ⟨h1, h2, h3, h4, h5, h6, h7⟩ :=
      extractGo_ok_facts policies parts [] 0 fs h
    refine ⟨?_, h2, h3, h4, h5, h6, h7, ?_⟩
    · have := congrArg List.length h2
      simpa using this
    · rw [h1]
      exact List.nodup_range' 0 parts.length
  · intro d c fs hmul hext
    simp [extractStage, hmul, hext]

/-- Witness for C1 at a concrete route whose second guard rejects. -/
theorem guards_short_circuit_witness :
    afterAuth guardRoute sampleReq = ([], Except.ok (initCtx sampleReq)) ∧
    Ev.handleEv ∉ (runPipeline guardRoute sampleReq).trace ∧
    Ev.resolveEv ∉ (runPipeline guardRoute sampleReq).trace ∧
    (runPipeline guardRoute sampleReq).response.status = 403 := by
  obtain ⟨-, h2⟩ :=
    guards_in_order_and_short_circuit guardRoute sampleReq [] (initCtx sampleReq) rfl
  obtain ⟨n, hn, c', -, -, -, -, -, hres, hhand, hresp⟩ :=
    h2 [Ev.guardEv 0, Ev.guardEv 1] forbidden rfl
  refine ⟨rfl, hhand, hres, ?_⟩
  rw [hresp rfl]
  rfl

/-- Witness for C2: a handler returning the undeclared status 201 yields a
logged ContractViolation and a 500 response. -/
theorem respond_cv_witness :
    (badStatusRoute.codes.lookup 201).isNone = true ∧
    (runPipeline badStatusRoute sampleReq).response =
      { status := 500, body := RespBody.internalError } ∧
    (runPipeline badStatusRoute sampleReq).logs = [LogEntry.contractViolation 201] := by
  have h := (respond_contract_violation).2 badStatusRoute sampleReq
    [Ev.validateEv Sect.params, Ev.validateEv Sect.query, Ev.validateEv Sect.body]
    valCtx 201 [] rfl rfl rfl
  exact ⟨rfl, h.1, h.2⟩

/-- Witness for C3: a body with an undeclared field is rejected with 400 and
the handler never runs. -/
theorem validate_strict_witness :
    validateOpt strictBodyRoute.bodySchema (initCtx extraFieldReq).rawBody ≠ [] ∧
    Ev.handleEv ∉ (runPipeline strictBodyRoute extraFieldReq).trace ∧
    (runPipeline strictBodyRoute extraFieldReq).response.status = 400 := by
  obtain ⟨hmain, -, -⟩ := validate_in_order_and_strict
  obtain ⟨-, -, h3⟩ := hmain strictBodyRoute extraFieldReq [] (initCtx extraFieldReq) rfl
  obtain ⟨hpipe, hres, hhand, hresp⟩ := h3 rfl rfl (by decide)
  refine ⟨by decide, hhand, ?_⟩
  rw [hresp rfl]

/-- Witness for C4: a succeeding resolver leads to the handler, a throwing
resolver short-circuits with its declared 404. -/
theorem resolver_witness :
    resolverRoute.resolver = some okResolver ∧
    Ev.handleEv ∈ (runPipeline resolverRoute sampleReq).trace ∧
    Ev.handleEv ∉ (runPipeline errResolverRoute sampleReq).trace ∧
    (runPipeline errResolverRoute sampleReq).response.status = 404 := by
  have hok := resolver_supplies_data_or_short_circuits resolverRoute sampleReq
    [Ev.validateEv Sect.params, Ev.validateEv Sect.query, Ev.validateEv Sect.body]
    valCtx okResolver rfl rfl
  obtain ⟨-, -, hmem⟩ := hok.1 [("rec", "r1")] rfl
  have herr := resolver_supplies_data_or_short_circuits errResolverRoute sampleReq
    [Ev.validateEv Sect.params, Ev.validateEv Sect.query, Ev.validateEv Sect.body]
    valCtx errResolver rfl rfl
  obtain ⟨-, hhand, hresp⟩ := herr.2 notFound rfl
  refine ⟨rfl, hmem, hhand, ?_⟩
  rw [hresp rfl]
  rfl

/-- Witness for C5 at a registry already holding the colliding key. -/
theorem duplicate_register_witness :
    dupRegistry.register sampleRoute = (dupRegistry, some RegError.duplicateRoute) ∧
    startupGo dupRegistry [sampleRoute] = Except.error RegError.duplicateRoute :=
  register_duplicate_fatal dupRegistry sampleRoute []
    ⟨sampleRoute, by simp [dupRegistry], rfl⟩

/-- Witness for C6 at a concrete finalized registry. -/
theorem finalized_closed_witness :
    applyRegOps closedRegistry [RegOp.register guardRoute, RegOp.finalize] =
      closedRegistry ∧
    (closedRegistry.register guardRoute).2.isSome = true := by
  obtain ⟨hfix, hreg, -⟩ := finalized_registry_permanently_closed closedRegistry rfl
  exact ⟨hfix _, (hreg [] guardRoute).2⟩

/-- Witness for C7: a three-byte upload against a two-byte policy is rejected
before resolve/handle and retains no temporary file. -/
theorem oversized_file_witness :
    exceedsPolicy upRoute.filePolicies bigPart = true ∧
    Ev.handleEv ∉ (runPipeline upRoute upReq).trace ∧
    Ev.resolveEv ∉ (runPipeline upRoute upReq).trace ∧
    (runPipeline upRoute upReq).retained = [] := by
  obtain ⟨-, -, h3⟩ := oversized_file_rejected_before_resolver upRoute upReq
    [Ev.validateEv Sect.params, Ev.validateEv Sect.query, Ev.validateEv Sect.body]
    valCtxUp rfl rfl
  obtain ⟨-, hres, hhand, hret⟩ := h3 (fileSizeError bigPart) rfl
  exact ⟨rfl, hhand, hres, hret⟩

/-- Witness for C9 at concrete schemas. -/
theorem response_codes_witness :
    ((buildResponseCodes sampleSchema ResponseErrorSchema).lookup 409).isSome = true ∧
    (buildExtraResponseCodes sampleSchema ResponseErrorSchema).map Prod.fst =
      [200, 400, 401, 403] := by
  have h := response_code_builders_exact sampleSchema ResponseErrorSchema
  exact ⟨h.2.1 409 (by rw [h.1]; decide), h.2.2.1⟩

/-- Witness for C10 at a concrete accepted upload. -/
theorem tempfiles_witness :
    extractFiles upRoute.filePolicies [okPart] = Except.ok [mkUpload 0 okPart] ∧
    ([mkUpload 0 okPart].map UploadFile.buffer = [okPart].map RawFilePart.content) ∧
    ([mkUpload 0 okPart].map UploadFile.id).Nodup := by
  have h := tempFiles_fully_buffered_with_metadata
  have h1 := h.1 upRoute.filePolicies [okPart] [mkUpload 0 okPart] rfl
  exact ⟨rfl, h1.2.1, h1.2.2.2.2.2.2.2⟩
